import Mathlib

/-!
# GPS time arithmetic (`gtime.c`)

A shallow embedding of the time library in
`examples/Callbacks/CallbackExample14_GPS_TIME_SYNC/gtime.c` together with
theorems about its conversions.

Conventions of the embedding:

* `float64_t` values are exact rationals (`ℚ`); rounding error is not modelled.
* `int64_t` arithmetic on `gtime_t.time` is ordinary integer arithmetic (signed
  overflow, which needs times near `2^63`, is undefined in C and not modelled).
  The one statement that ranges over all 64-bit times, the antisymmetry of the time
  difference, is settled on `gtime_timediff_int64`, where the subtraction
  `t1.time-t2.time` is reduced to 64 bits (`wrap64`).
* `int32_t` values obtained by narrowing an `int64_t`, and the `int32_t`
  arithmetic of the day count, wrap to 32-bit two's complement (`wrap32`).
* a conversion `(int32_t)x` / `(int64_t)x` of a `float64_t` discards the
  fractional part (rounds toward zero); outside the target range, where C
  leaves the result undefined, the model saturates at the bounds of the type.
* C's `/` and `%` on integers are `Int.tdiv` and `Int.tmod` (round toward zero).
-/

namespace GTime

/-! ## Machine arithmetic -/

/-- Reduction of an integer to the 32-bit two's-complement range. -/
def wrap32 (z : Int) : Int := (z + 2147483648) % 4294967296 - 2147483648

/-- Reduction of an integer to the 64-bit two's-complement range. -/
def wrap64 (z : Int) : Int :=
  (z + 9223372036854775808) % 18446744073709551616 - 9223372036854775808

/-- Integer part of a `float64_t`, rounding toward zero. -/
def trunc (x : ℚ) : Int := if 0 ≤ x then ⌊x⌋ else ⌈x⌉

/-- The conversion `(int32_t)x` of a `float64_t`. -/
def toInt32 (x : ℚ) : Int := max (-2147483648) (min 2147483647 (trunc x))

/-- The conversion `(int64_t)x` of a `float64_t`. -/
def toInt64 (x : ℚ) : Int :=
  max (-9223372036854775808) (min 9223372036854775807 (trunc x))

/-! ## Data model -/

/-- The struct `gtime_t` of `gtime.h`: whole seconds and fractional part. -/
structure gtime_t where
  time : Int
  sec : ℚ
deriving DecidableEq

/-- A calendar array `ep[0..5]`: `{year, month, day, hour, min, sec}`. -/
structure epoch_t where
  year : ℚ
  mon : ℚ
  day : ℚ
  hour : ℚ
  minute : ℚ
  sec : ℚ
deriving DecidableEq

/-- One row of the table `leaps`: the calendar instant in columns 0..5 and
the value utc-gpst in column 6. -/
structure leap_t where
  ep : epoch_t
  off : ℚ
deriving DecidableEq

/-- The macro `MAXLEAPS`. -/
def MAXLEAPS : Nat := 64

/-- The array `gpst0`, the gps time reference. -/
def gpst0 : epoch_t := ⟨1980, 1, 6, 0, 0, 0⟩

/-- A zero-initialised row of `leaps`. -/
def leapZero : leap_t := ⟨⟨0, 0, 0, 0, 0, 0⟩, 0⟩

/-- The eighteen initialised rows of `leaps`, newest first. -/
def leapRows : List leap_t :=
  [ ⟨⟨2017, 1, 1, 0, 0, 0⟩, -18⟩,
    ⟨⟨2015, 7, 1, 0, 0, 0⟩, -17⟩,
    ⟨⟨2012, 7, 1, 0, 0, 0⟩, -16⟩,
    ⟨⟨2009, 1, 1, 0, 0, 0⟩, -15⟩,
    ⟨⟨2006, 1, 1, 0, 0, 0⟩, -14⟩,
    ⟨⟨1999, 1, 1, 0, 0, 0⟩, -13⟩,
    ⟨⟨1997, 7, 1, 0, 0, 0⟩, -12⟩,
    ⟨⟨1996, 1, 1, 0, 0, 0⟩, -11⟩,
    ⟨⟨1994, 7, 1, 0, 0, 0⟩, -10⟩,
    ⟨⟨1993, 7, 1, 0, 0, 0⟩, -9⟩,
    ⟨⟨1992, 7, 1, 0, 0, 0⟩, -8⟩,
    ⟨⟨1991, 1, 1, 0, 0, 0⟩, -7⟩,
    ⟨⟨1990, 1, 1, 0, 0, 0⟩, -6⟩,
    ⟨⟨1988, 1, 1, 0, 0, 0⟩, -5⟩,
    ⟨⟨1985, 7, 1, 0, 0, 0⟩, -4⟩,
    ⟨⟨1983, 7, 1, 0, 0, 0⟩, -3⟩,
    ⟨⟨1982, 7, 1, 0, 0, 0⟩, -2⟩,
    ⟨⟨1981, 7, 1, 0, 0, 0⟩, -1⟩ ]

/-- The static array `leaps[MAXLEAPS+1][7]`: the initialised rows, the
explicit `{0}` row and the remaining rows, which C zero-initialises. -/
def leaps : List leap_t :=
  leapRows ++ List.replicate (MAXLEAPS + 1 - leapRows.length) leapZero

/-! ## Operations -/

/-- The function `gtime_timeadd`:
`t.sec+=sec; tt=floor(t.sec); t.time+=(int32_t)tt; t.sec-=tt;`. -/
def gtime_timeadd (t : gtime_t) (sec : ℚ) : gtime_t :=
  let s1 : ℚ := t.sec + sec
  let tt : ℚ := ((⌊s1⌋ : Int) : ℚ)
  { time := t.time + toInt32 tt, sec := s1 - tt }

/-- The function `gtime_timediff`:
`(t1.time-t2.time)+t1.sec-t2.sec`, with the difference of whole seconds taken
exactly: the value of the C expression whenever `t1.time-t2.time` is representable
in `int64_t`. -/
def gtime_timediff (t1 t2 : gtime_t) : ℚ :=
  ((t1.time - t2.time : Int) : ℚ) + t1.sec - t2.sec

/-- The function `gtime_timediff` with the subtraction `t1.time-t2.time` carried out
in `int64_t`: a difference that `int64_t` cannot hold (undefined in C) is reduced to
64 bits, as on the two's-complement targets. -/
def gtime_timediff_int64 (t1 t2 : gtime_t) : ℚ :=
  ((wrap64 (t1.time - t2.time) : Int) : ℚ) + t1.sec - t2.sec

/-- The table `doy` of `gtime_epoch2time`. -/
def doy : List Int := [1, 32, 60, 91, 121, 152, 182, 213, 244, 274, 305, 335]

/-- The function `gtime_epoch2time`. -/
def gtime_epoch2time (ep : epoch_t) : gtime_t :=
  let year : Int := toInt32 ep.year
  let mon : Int := toInt32 ep.mon
  let day : Int := toInt32 ep.day
  if year < 1970 ∨ 2099 < year ∨ mon < 1 ∨ 12 < mon then ⟨0, 0⟩
  else
    let days : Int :=
      wrap32 ((year - 1970) * 365 + (year - 1969).tdiv 4 + doy.getD (mon - 1).toNat 0
        + day - 2 + (if year.tmod 4 = 0 ∧ mon ≥ 3 then 1 else 0))
    let sec : Int := toInt32 ((⌊ep.sec⌋ : Int) : ℚ)
    { time := days * 86400 + toInt64 ep.hour * 3600 + toInt64 ep.minute * 60 + sec,
      sec := ep.sec - (sec : ℚ) }

/-- The table `mday` of `gtime_time2epoch`: days in a month over four years. -/
def mday : List Int :=
  [ 31, 28, 31, 30, 31, 30, 31, 31, 30, 31, 30, 31,
    31, 28, 31, 30, 31, 30, 31, 31, 30, 31, 30, 31,
    31, 29, 31, 30, 31, 30, 31, 31, 30, 31, 30, 31,
    31, 28, 31, 30, 31, 30, 31, 31, 30, 31, 30, 31 ]

/-- The loop of `gtime_time2epoch`,
`for (...; mon<48; mon++) if (day >= mday[mon]) day -= mday[mon]; else break;`,
run over the entries of the table that remain; returns `(day, mon)`. -/
def mdayWalk : List Int → Int → Int → Int × Int
  | [], day, mon => (day, mon)
  | m :: ms, day, mon => if day ≥ m then mdayWalk ms (day - m) (mon + 1) else (day, mon)

/-- The function `gtime_time2epoch`; the output array `ep` is the result. -/
def gtime_time2epoch (t : gtime_t) : epoch_t :=
  let days : Int := wrap32 (t.time.tdiv 86400)
  let sec : Int := wrap32 (t.time - days * 86400)
  let dm : Int × Int := mdayWalk mday (days.tmod 1461) 0
  let day : Int := dm.1
  let mon : Int := dm.2
  { year := 1970 + ((days.tdiv 1461 : Int) : ℚ) * 4 + ((mon.tdiv 12 : Int) : ℚ),
    mon := ((mon.tmod 12 : Int) : ℚ) + 1,
    day := (day : ℚ) + 1,
    hour := ((sec.tdiv 3600 : Int) : ℚ),
    minute := (((sec.tmod 3600).tdiv 60 : Int) : ℚ),
    sec := ((sec.tmod 60 : Int) : ℚ) + t.sec }

/-- The function `gtime_gpst2time`. -/
def gtime_gpst2time (week : Int) (sec : ℚ) : gtime_t :=
  let t : gtime_t := gtime_epoch2time gpst0
  let sec : ℚ := if sec < -1000000000 ∨ 1000000000 < sec then 0 else sec
  { time := t.time + (86400 * 7 * week + toInt32 sec),
    sec := sec - (toInt32 sec : ℚ) }

/-- The function `gtime_time2gpst`; returns the time of week and the value
written through `week`. -/
def gtime_time2gpst (t : gtime_t) : ℚ × Int :=
  let t0 : gtime_t := gtime_epoch2time gpst0
  let sec : Int := t.time - t0.time
  let w : Int := wrap32 (sec.tdiv (86400 * 7))
  ((sec : ℚ) - (w : ℚ) * 86400 * 7 + t.sec, w)

/-- The loop of `gtime_gpst2utc` over the rows that remain. -/
def gpst2utcScan (t : gtime_t) : List leap_t → gtime_t
  | [] => t
  | r :: rs =>
    if r.ep.year > 0 then
      let tu : gtime_t := gtime_timeadd t r.off
      if gtime_timediff tu (gtime_epoch2time r.ep) ≥ 0 then tu else gpst2utcScan t rs
    else t

/-- The function `gtime_gpst2utc`. -/
def gtime_gpst2utc (t : gtime_t) : gtime_t := gpst2utcScan t leaps

/-- The loop of `gtime_utc2gpst` over the rows that remain. -/
def utc2gpstScan (t : gtime_t) : List leap_t → gtime_t
  | [] => t
  | r :: rs =>
    if r.ep.year > 0 then
      if gtime_timediff t (gtime_epoch2time r.ep) ≥ 0 then gtime_timeadd t (-r.off)
      else utc2gpstScan t rs
    else t

/-- The function `gtime_utc2gpst`. -/
def gtime_utc2gpst (t : gtime_t) : gtime_t := utc2gpstScan t leaps

/-! ## Auxiliary definitions for the statements and proofs -/

/-- Day count of `gtime_epoch2time` before the 32-bit reduction, written with
floor division: the value of `days` for a year from 1970 on. -/
def dayNumber (y m d : Int) : Int :=
  (y - 1970) * 365 + (y - 1969) / 4 + doy.getD (m - 1).toNat 0 + d - 2
    + (if y % 4 = 0 ∧ m ≥ 3 then 1 else 0)

/-- Number of days in the first `k` entries of `mday`: the day of the four-year
cycle on which month `k` of the cycle begins. -/
def mdayStart (k : Nat) : Int := (mday.take k).sum

/-- Length of month `m` of year `y` under the rule that February has 29 days
exactly when `y % 4 = 0`. -/
def monthLength (y m : Int) : Int :=
  if m = 2 then (if y % 4 = 0 then 29 else 28)
  else if m = 4 ∨ m = 6 ∨ m = 9 ∨ m = 11 then 30 else 31

/-- Length of month `m` in year `c` of the four-year cycle that starts in 1970;
year 2 of the cycle is the leap year. -/
def monthLengthCycle (c m : Int) : Int :=
  if m = 2 then (if c = 2 then 29 else 28)
  else if m = 4 ∨ m = 6 ∨ m = 9 ∨ m = 11 then 30 else 31

/-- Gregorian leap-year rule: divisible by 4, and not by 100 unless by 400. -/
def gregorianIsLeap (y : Int) : Bool :=
  decide (y % 4 = 0 ∧ (y % 100 ≠ 0 ∨ y % 400 = 0))

/-- Number of days of a Gregorian year. -/
def gregorianYearDays (leap : Bool) : Int := if leap then 366 else 365

/-- Number of days of month `m` in the Gregorian calendar. -/
def gregorianMonthDays (leap : Bool) (m : Int) : Int :=
  if m = 2 then (if leap then 29 else 28)
  else if m = 4 ∨ m = 6 ∨ m = 9 ∨ m = 11 then 30 else 31

/-- Number of days from 1970-01-01 to the date `y`-`m`-`d` in the Gregorian
calendar, obtained by adding up the lengths of the whole years and whole months
in between. Written from the calendar, independently of `gtime_epoch2time`. -/
def gregorianDays (y m d : Int) : Int :=
  ((List.range (y - 1970).toNat).map
      (fun (i : Nat) => gregorianYearDays (gregorianIsLeap (1970 + (i : Int))))).sum
    + ((List.range (m - 1).toNat).map
      (fun (i : Nat) => gregorianMonthDays (gregorianIsLeap y) (1 + (i : Int)))).sum
    + (d - 1)

/-- The instant a `gtime_t` represents, in seconds: whole seconds plus fraction. -/
def instant (t : gtime_t) : ℚ := (t.time : ℚ) + t.sec

/-- A row of `leaps` that the scans treat as a threshold: its year is positive,
its calendar instant is the whole second `p.1`, and its offset is `-p.2`. -/
def RegularRow (r : leap_t) (p : Int × Int) : Prop :=
  r.ep.year > 0 ∧ gtime_epoch2time r.ep = ⟨p.1, 0⟩ ∧ r.off = -(p.2 : ℚ) ∧ 0 ≤ p.2 ∧ p.2 ≤ 1000

/-- Seconds subtracted by the scan of `gtime_gpst2utc` over a table of
(threshold, leap count) pairs: the first count `k` whose threshold is not after `t - k`. -/
def gpsShift (t : Int) : List (Int × Int) → Int
  | [] => 0
  | p :: rest => if p.1 ≤ t - p.2 then p.2 else gpsShift t rest

/-- The rows of `leapRows` as (whole seconds of the calendar instant, leap count). -/
def leapTable : List (Int × Int) :=
  [ (1483228800, 18), (1435708800, 17), (1341100800, 16), (1230768000, 15),
    (1136073600, 14), (915148800, 13), (867715200, 12), (820454400, 11),
    (773020800, 10), (741484800, 9), (709948800, 8), (662688000, 7),
    (631152000, 6), (567993600, 5), (489024000, 4), (425865600, 3),
    (394329600, 2), (362793600, 1) ]

/-- Whole days of a `gtime_t` by floor division: `floor (t.time / 86400)`. -/
def floorDays (t : gtime_t) : Int := ⌊(t.time : ℚ) / 86400⌋

/-- Seconds of the day left by the floor division: `t.time - floorDays t * 86400`. -/
def secOfDay (t : gtime_t) : Int := t.time - floorDays t * 86400

/-- The rows of `leapRows` as (year, month); every row is the first of a month,
0 h 0 min 0 s. -/
def leapDates : List (Int × Int) :=
  [ (2017, 1), (2015, 7), (2012, 7), (2009, 1), (2006, 1), (1999, 1), (1997, 7), (1996, 1),
    (1994, 7), (1993, 7), (1992, 7), (1991, 1), (1990, 1), (1988, 1), (1985, 7), (1983, 7),
    (1982, 7), (1981, 7) ]

/-- A row of `leaps` whose calendar instant is 00:00:00 on the first day of month
`p.2` of year `p.1`. -/
def FirstOfMonth (r : leap_t) (p : Int × Int) : Prop :=
  r.ep = ⟨(p.1 : ℚ), (p.2 : ℚ), 1, 0, 0, 0⟩

/-! ## Theorems -/

/-! ### Conversions and machine arithmetic -/

theorem trunc_intCast (z : Int) : trunc (z : ℚ) = z := by
  unfold trunc
  split <;> simp

theorem toInt32_intCast (z : Int) (h1 : -2147483648 ≤ z) (h2 : z ≤ 2147483647) :
    toInt32 (z : ℚ) = z := by
  unfold toInt32
  rw [trunc_intCast]
  omega

theorem toInt64_intCast (z : Int) (h1 : -9223372036854775808 ≤ z)
    (h2 : z ≤ 9223372036854775807) : toInt64 (z : ℚ) = z := by
  unfold toInt64
  rw [trunc_intCast]
  omega

theorem wrap32_eq (z : Int) (h1 : -2147483648 ≤ z) (h2 : z ≤ 2147483647) : wrap32 z = z := by
  unfold wrap32
  omega

theorem trunc_of_nonneg (x : ℚ) (h : 0 ≤ x) : trunc x = ⌊x⌋ := by
  unfold trunc
  simp [h]

theorem tdiv_of_nonneg (a b : Int) (ha : 0 ≤ a) (hb : 0 ≤ b) : a.tdiv b = a / b :=
  Int.tdiv_eq_ediv ha hb

theorem tmod_of_nonneg (a b : Int) (ha : 0 ≤ a) (hb : 0 ≤ b) : a.tmod b = a % b :=
  Int.tmod_eq_emod ha hb

/-! ### `gtime_epoch2time`: the guard -/

/-- Claim C4 (invalid calendar input gives the zero sentinel). For a calendar input
whose year is below 1970 or above 2099, or whose month is below 1 or above 12,
whatever the day, hour, minute and second fields hold, `gtime_epoch2time` returns
`time = 0` and `sec = 0`. Year and month are whole numbers, as calendar fields are. -/
theorem epoch2time_invalid (y m : Int) (d h mi s : ℚ)
    (hbad : y < 1970 ∨ 2099 < y ∨ m < 1 ∨ 12 < m) :
    gtime_epoch2time ⟨(y : ℚ), (m : ℚ), d, h, mi, s⟩ = ⟨0, 0⟩ := by
  have hy : toInt32 (y : ℚ) = max (-2147483648) (min 2147483647 y) := by
    unfold toInt32; rw [trunc_intCast]
  have hm : toInt32 (m : ℚ) = max (-2147483648) (min 2147483647 m) := by
    unfold toInt32; rw [trunc_intCast]
  unfold gtime_epoch2time
  simp only [hy, hm]
  rw [if_pos]
  omega

/-- The year 1969 is rejected: an instance of `epoch2time_invalid`. -/
theorem epoch2time_invalid_witness :
    (1969 < (1970 : Int) ∨ 2099 < (1969 : Int) ∨ (1 : Int) < 1 ∨ 12 < (1 : Int)) ∧
    gtime_epoch2time ⟨((1969 : Int) : ℚ), ((1 : Int) : ℚ), 1, 0, 0, 0⟩ = ⟨0, 0⟩ :=
  ⟨by decide, epoch2time_invalid 1969 1 1 0 0 0 (by decide)⟩

/-! ### `gtime_epoch2time` on valid input -/

theorem doy_bounds (m : Int) (hm : 1 ≤ m) (hm2 : m ≤ 12) :
    1 ≤ doy.getD (m - 1).toNat 0 ∧ doy.getD (m - 1).toNat 0 ≤ 335 := by
  interval_cases m <;> decide

theorem floor_sec_bounds (s : ℚ) (hs : 0 ≤ s) (hs2 : s < 60) : 0 ≤ ⌊s⌋ ∧ ⌊s⌋ ≤ 59 := by
  constructor
  · exact Int.floor_nonneg.mpr hs
  · have : ⌊s⌋ < 60 := Int.floor_lt.mpr (by exact_mod_cast hs2)
    omega

theorem epoch2time_valid (y m d h mi : Int) (s : ℚ)
    (hy : 1970 ≤ y) (hy2 : y ≤ 2099) (hm : 1 ≤ m) (hm2 : m ≤ 12)
    (hd : 1 ≤ d) (hd2 : d ≤ 31) (hh : 0 ≤ h) (hh2 : h ≤ 23)
    (hmi : 0 ≤ mi) (hmi2 : mi ≤ 59) (hs : 0 ≤ s) (hs2 : s < 60) :
    gtime_epoch2time ⟨(y : ℚ), (m : ℚ), (d : ℚ), (h : ℚ), (mi : ℚ), s⟩
      = ⟨dayNumber y m d * 86400 + h * 3600 + mi * 60 + ⌊s⌋, s - ((⌊s⌋ : Int) : ℚ)⟩ := by
  obtain ⟨hf1, hf2⟩ := floor_sec_bounds s hs hs2
  obtain ⟨hq1, hq2⟩ := doy_bounds m hm hm2
  unfold gtime_epoch2time
  simp only [toInt32_intCast y (by omega) (by omega), toInt32_intCast m (by omega) (by omega),
    toInt32_intCast d (by omega) (by omega), toInt64_intCast h (by omega) (by omega),
    toInt64_intCast mi (by omega) (by omega), toInt32_intCast ⌊s⌋ (by omega) (by omega)]
  rw [if_neg (by omega)]
  rw [tdiv_of_nonneg (y - 1969) 4 (by omega) (by omega),
    tmod_of_nonneg y 4 (by omega) (by omega)]
  have hw : wrap32 ((y - 1970) * 365 + (y - 1969) / 4 + doy.getD (m - 1).toNat 0 + d - 2
      + (if y % 4 = 0 ∧ m ≥ 3 then 1 else 0)) = dayNumber y m d := by
    unfold dayNumber
    apply wrap32_eq <;> split <;> omega
  rw [hw]

/-! ### The month-table walk of `gtime_time2epoch` -/

theorem sum_nonneg_of_forall (l : List Int) (hl : ∀ v ∈ l, 0 ≤ v) : 0 ≤ l.sum := by
  induction l with
  | nil => simp
  | cons a t ih =>
    have ha : 0 ≤ a := hl a (by simp)
    have ht : 0 ≤ t.sum := ih (fun v hv => hl v (by simp [hv]))
    simp only [List.sum_cons]
    omega

theorem sum_take_nonneg (l : List Int) (hl : ∀ v ∈ l, 0 ≤ v) (k : Nat) : 0 ≤ (l.take k).sum :=
  sum_nonneg_of_forall _ (fun v hv => hl v (List.mem_of_mem_take hv))

theorem mdayWalk_take (l : List Int) (hl : ∀ v ∈ l, 0 ≤ v) (k : Nat) (hk : k < l.length)
    (e mon0 : Int) (he : 0 ≤ e) (hx : e < l.getD k 0) :
    mdayWalk l ((l.take k).sum + e) mon0 = (e, mon0 + k) := by
  induction l generalizing k mon0 with
  | nil => simp at hk
  | cons a t ih =>
    have ht : ∀ v ∈ t, 0 ≤ v := fun v hv => hl v (by simp [hv])
    cases k with
    | zero =>
      simp only [List.getD_cons_zero] at hx
      simp only [List.take_zero, List.sum_nil, zero_add, mdayWalk]
      rw [if_neg (by omega)]
      simp
    | succ k =>
      simp only [List.getD_cons_succ] at hx
      simp only [List.length_cons, Nat.add_lt_add_iff_right] at hk
      have hs := sum_take_nonneg t ht k
      simp only [List.take_succ_cons, List.sum_cons, mdayWalk]
      rw [if_pos (by omega)]
      have hday : a + (List.take k t).sum + e - a = (List.take k t).sum + e := by omega
      rw [hday, ih ht k hk (mon0 + 1) hx]
      simp only [Nat.cast_add, Nat.cast_one, Prod.mk.injEq, true_and]
      omega

theorem mday_nonneg : ∀ v ∈ mday, 0 ≤ v := by decide

theorem mday_length : mday.length = 48 := by decide

set_option maxRecDepth 100000 in
theorem cycle_table :
    ∀ c ∈ ([0, 1, 2, 3] : List Int), ∀ m ∈ ([1, 2, 3, 4, 5, 6, 7, 8, 9, 10, 11, 12] : List Int),
      365 * c + (c + 1) / 4 + doy.getD (m - 1).toNat 0 - 1 + (if c = 2 ∧ m ≥ 3 then 1 else 0)
          = mdayStart (12 * c + (m - 1)).toNat ∧
        mday.getD (12 * c + (m - 1)).toNat 0 = monthLengthCycle c m ∧
        0 ≤ mdayStart (12 * c + (m - 1)).toNat ∧
        mdayStart (12 * c + (m - 1)).toNat + mday.getD (12 * c + (m - 1)).toNat 0 ≤ 1461 := by
  decide

theorem dayNumber_decomp (y m : Int) (hy : 1970 ≤ y) (hy2 : y ≤ 2099)
    (hm : 1 ≤ m) (hm2 : m ≤ 12) :
    ∃ k : Nat, k < 48 ∧ (k : Int) = 12 * ((y - 1970) % 4) + (m - 1) ∧
      (∀ d : Int, dayNumber y m d = 1461 * ((y - 1970) / 4) + mdayStart k + (d - 1)) ∧
      mday.getD k 0 = monthLength y m ∧ 0 ≤ mdayStart k ∧
      mdayStart k + mday.getD k 0 ≤ 1461 := by
  obtain ⟨q, c, hc1, hc2, rfl⟩ : ∃ q c : Int, 0 ≤ c ∧ c ≤ 3 ∧ y = 1970 + 4 * q + c :=
    ⟨(y - 1970) / 4, (y - 1970) % 4, by omega, by omega, by omega⟩
  have hq : (1970 + 4 * q + c - 1970) / 4 = q := by omega
  have hcm : (1970 + 4 * q + c - 1970) % 4 = c := by omega
  have hleap : ((1970 + 4 * q + c) % 4 = 0) = (c = 2) := by
    apply propext; omega
  have hdiv : (1970 + 4 * q + c - 1969) / 4 = q + (c + 1) / 4 := by omega
  have hcmem : c ∈ ([0, 1, 2, 3] : List Int) := by
    simp only [List.mem_cons, List.mem_singleton, List.not_mem_nil, or_false]; omega
  have hmmem : m ∈ ([1, 2, 3, 4, 5, 6, 7, 8, 9, 10, 11, 12] : List Int) := by
    simp only [List.mem_cons, List.mem_singleton, List.not_mem_nil, or_false]; omega
  obtain ⟨h1, h2, h3, h4⟩ := cycle_table c hcmem m hmmem
  refine ⟨(12 * c + (m - 1)).toNat, by omega, by omega, ?_, ?_, h3, h4⟩
  · intro d
    simp only [dayNumber, hq, hleap, hdiv]
    rw [← h1]
    split <;> omega
  · rw [h2]
    simp only [monthLength, monthLengthCycle, hleap]

/-! ### Calendar round trips -/

theorem time2epoch_split (D r : Int) (f : ℚ) (hD : 0 ≤ D) (hD2 : D ≤ 2147483647)
    (hr : 0 ≤ r) (hr2 : r < 86400) :
    gtime_time2epoch ⟨D * 86400 + r, f⟩ =
      { year := 1970 + ((D / 1461 : Int) : ℚ) * 4
          + (((mdayWalk mday (D % 1461) 0).2.tdiv 12 : Int) : ℚ),
        mon := (((mdayWalk mday (D % 1461) 0).2.tmod 12 : Int) : ℚ) + 1,
        day := ((mdayWalk mday (D % 1461) 0).1 : ℚ) + 1,
        hour := ((r / 3600 : Int) : ℚ),
        minute := ((r % 3600 / 60 : Int) : ℚ),
        sec := ((r % 60 : Int) : ℚ) + f } := by
  have h1 : (D * 86400 + r).tdiv 86400 = D := by
    rw [tdiv_of_nonneg _ _ (by omega) (by omega)]; omega
  have h2 : wrap32 D = D := wrap32_eq D (by omega) hD2
  have h3 : wrap32 (D * 86400 + r - D * 86400) = r := by
    have : D * 86400 + r - D * 86400 = r := by omega
    rw [this]; exact wrap32_eq r (by omega) (by omega)
  unfold gtime_time2epoch
  simp only [h1, h2, h3]
  rw [tdiv_of_nonneg D 1461 hD (by omega), tmod_of_nonneg D 1461 hD (by omega),
    tdiv_of_nonneg r 3600 hr (by omega), tmod_of_nonneg r 3600 hr (by omega),
    tmod_of_nonneg r 60 hr (by omega),
    tdiv_of_nonneg (r % 3600) 60 (by omega) (by omega)]

/-- Claim C1 (calendar round trip). For whole-number year, month, day, hour and
minute with 1970 ≤ year ≤ 2099, 1 ≤ month ≤ 12, 1 ≤ day ≤ length of that month
(February has 29 days exactly when `year % 4 = 0`), 0 ≤ hour ≤ 23, 0 ≤ minute ≤ 59,
and an exact second with 0 ≤ second < 60, `gtime_time2epoch (gtime_epoch2time E)`
reproduces all six fields of `E`. -/
theorem epoch_roundtrip (y m d h mi : Int) (s : ℚ)
    (hy : 1970 ≤ y ∧ y ≤ 2099) (hm : 1 ≤ m ∧ m ≤ 12) (hd : 1 ≤ d ∧ d ≤ monthLength y m)
    (hh : 0 ≤ h ∧ h ≤ 23) (hmi : 0 ≤ mi ∧ mi ≤ 59) (hs : 0 ≤ s ∧ s < 60) :
    gtime_time2epoch (gtime_epoch2time ⟨(y : ℚ), (m : ℚ), (d : ℚ), (h : ℚ), (mi : ℚ), s⟩)
      = ⟨(y : ℚ), (m : ℚ), (d : ℚ), (h : ℚ), (mi : ℚ), s⟩ := by
  obtain ⟨hy1, hy2⟩ := hy
  obtain ⟨hm1, hm2⟩ := hm
  obtain ⟨hd1, hd2⟩ := hd
  obtain ⟨hh1, hh2⟩ := hh
  obtain ⟨hmi1, hmi2⟩ := hmi
  obtain ⟨hs1, hs2⟩ := hs
  obtain ⟨hf1, hf2⟩ := floor_sec_bounds s hs1 hs2
  obtain ⟨k, hk, hkc, hday, hlen, hst, hen⟩ := dayNumber_decomp y m hy1 hy2 hm1 hm2
  have hml : monthLength y m ≤ 31 := by
    unfold monthLength; split_ifs <;> omega
  rw [epoch2time_valid y m d h mi s hy1 hy2 hm1 hm2 hd1 (by omega) hh1 hh2 hmi1 hmi2 hs1 hs2]
  have hre : dayNumber y m d * 86400 + h * 3600 + mi * 60 + ⌊s⌋
      = dayNumber y m d * 86400 + (h * 3600 + mi * 60 + ⌊s⌋) := by omega
  have hDN := hday d
  rw [hre, time2epoch_split _ _ _ (by omega) (by omega) (by omega) (by omega)]
  have hmod : dayNumber y m d % 1461 = mdayStart k + (d - 1) := by omega
  have hdiv : dayNumber y m d / 1461 = (y - 1970) / 4 := by omega
  have hwalk : mdayWalk mday (mdayStart k + (d - 1)) 0 = (d - 1, 0 + (k : Int)) :=
    mdayWalk_take mday mday_nonneg k (by rw [mday_length]; exact hk) (d - 1) 0 (by omega)
      (by omega)
  rw [hmod, hdiv, hwalk]
  simp only [zero_add]
  rw [tdiv_of_nonneg (k : Int) 12 (by omega) (by omega),
    tmod_of_nonneg (k : Int) 12 (by omega) (by omega)]
  have e1 : (y - 1970) / 4 * 4 + (k : Int) / 12 = y - 1970 := by omega
  have e2 : (k : Int) % 12 = m - 1 := by omega
  have e3 : (h * 3600 + mi * 60 + ⌊s⌋) / 3600 = h := by omega
  have e4 : (h * 3600 + mi * 60 + ⌊s⌋) % 3600 / 60 = mi := by omega
  have e5 : (h * 3600 + mi * 60 + ⌊s⌋) % 60 = ⌊s⌋ := by omega
  have e1q : (1970 : ℚ) + (((y - 1970) / 4 : Int) : ℚ) * 4 + (((k : Int) / 12 : Int) : ℚ)
      = (y : ℚ) := by
    have : (y : ℚ) = (((y - 1970) / 4 * 4 + (k : Int) / 12 + 1970 : Int) : ℚ) := by
      rw [e1]; push_cast; ring
    rw [this]; push_cast; ring
  rw [e1q, e2, e3, e4, e5]
  congr 1
  · push_cast; ring
  · push_cast; ring
  · ring

/-- The GPS epoch 1980-01-06 00:00:00 survives the calendar round trip. -/
theorem epoch_roundtrip_witness :
    ((1970 ≤ (1980 : Int) ∧ (1980 : Int) ≤ 2099) ∧ (1 ≤ (1 : Int) ∧ (1 : Int) ≤ 12) ∧
      (1 ≤ (6 : Int) ∧ (6 : Int) ≤ monthLength 1980 1) ∧ (0 ≤ (0 : Int) ∧ (0 : Int) ≤ 23) ∧
      (0 ≤ (0 : Int) ∧ (0 : Int) ≤ 59) ∧ (0 ≤ (0 : ℚ) ∧ (0 : ℚ) < 60)) ∧
    gtime_time2epoch (gtime_epoch2time
        ⟨((1980 : Int) : ℚ), ((1 : Int) : ℚ), ((6 : Int) : ℚ), ((0 : Int) : ℚ),
          ((0 : Int) : ℚ), 0⟩)
      = ⟨((1980 : Int) : ℚ), ((1 : Int) : ℚ), ((6 : Int) : ℚ), ((0 : Int) : ℚ),
          ((0 : Int) : ℚ), 0⟩ :=
  ⟨⟨by decide, by decide, by decide, by decide, by decide, by norm_num⟩,
    epoch_roundtrip 1980 1 6 0 0 0 (by decide) (by decide) (by decide) (by decide)
      (by decide) (by norm_num)⟩

/-! ### Agreement with the Gregorian calendar -/

theorem gregorianIsLeap_eq (y : Int) (hy : 1970 ≤ y) (hy2 : y ≤ 2099) :
    gregorianIsLeap y = decide (y % 4 = 0) := by
  unfold gregorianIsLeap
  apply decide_eq_decide.mpr
  constructor
  · intro h; exact h.1
  · intro h; exact ⟨h, by omega⟩

theorem gregorian_years_sum (n : Nat) (hn : n ≤ 130) :
    ((List.range n).map
      (fun (i : Nat) => gregorianYearDays (gregorianIsLeap (1970 + (i : Int))))).sum
      = 365 * (n : Int) + ((n : Int) + 1) / 4 := by
  induction n with
  | zero => simp
  | succ n ih =>
    have hleap : gregorianYearDays (gregorianIsLeap (1970 + (n : Int)))
        = 365 + (if (1970 + (n : Int)) % 4 = 0 then 1 else 0) := by
      rw [gregorianIsLeap_eq _ (by omega) (by omega)]
      unfold gregorianYearDays
      by_cases h4 : (1970 + (n : Int)) % 4 = 0
      · simp [h4]
      · simp [h4]
    rw [List.range_succ, List.map_append, List.sum_append, ih (by omega)]
    simp only [List.map_cons, List.map_nil, List.sum_cons, List.sum_nil, add_zero, hleap]
    push_cast
    split <;> omega

set_option maxRecDepth 100000 in
theorem gregorian_months_sum :
    ∀ leap ∈ [true, false], ∀ m ∈ ([1, 2, 3, 4, 5, 6, 7, 8, 9, 10, 11, 12] : List Int),
      ((List.range (m - 1).toNat).map (fun (i : Nat) => gregorianMonthDays leap (1 + (i : Int)))).sum
        = doy.getD (m - 1).toNat 0 - 1 + (if leap = true ∧ m ≥ 3 then 1 else 0) := by
  decide

theorem dayNumber_eq_gregorianDays (y m d : Int) (hy : 1970 ≤ y) (hy2 : y ≤ 2099)
    (hm : 1 ≤ m) (hm2 : m ≤ 12) : dayNumber y m d = gregorianDays y m d := by
  have hmmem : m ∈ ([1, 2, 3, 4, 5, 6, 7, 8, 9, 10, 11, 12] : List Int) := by
    simp only [List.mem_cons, List.mem_singleton, List.not_mem_nil, or_false]; omega
  have hmon := gregorian_months_sum (gregorianIsLeap y) (by cases gregorianIsLeap y <;> simp)
    m hmmem
  have hyr := gregorian_years_sum (y - 1970).toNat (by omega)
  have hcast : (((y - 1970).toNat : Nat) : Int) = y - 1970 := by omega
  rw [gregorianIsLeap_eq y hy hy2] at hmon
  simp only [decide_eq_true_eq] at hmon
  unfold gregorianDays dayNumber
  rw [hyr, gregorianIsLeap_eq y hy hy2, hmon, hcast]
  split <;> omega

/-- Claim C3 (agreement with the Gregorian calendar). For a valid date with
1970 ≤ year ≤ 2099, month 1..12, day valid for the month under the Gregorian
leap-year rule, hour 0..23, minute 0..59 and 0 ≤ second < 60, `gtime_epoch2time`
returns `time = 86400 * (Gregorian days since 1970-01-01) + 3600 * hour + 60 * minute
+ floor second` and `sec = second - floor second`. -/
theorem epoch2time_gregorian (y m d h mi : Int) (s : ℚ)
    (hy : 1970 ≤ y ∧ y ≤ 2099) (hm : 1 ≤ m ∧ m ≤ 12)
    (hd : 1 ≤ d ∧ d ≤ gregorianMonthDays (gregorianIsLeap y) m)
    (hh : 0 ≤ h ∧ h ≤ 23) (hmi : 0 ≤ mi ∧ mi ≤ 59) (hs : 0 ≤ s ∧ s < 60) :
    (gtime_epoch2time ⟨(y : ℚ), (m : ℚ), (d : ℚ), (h : ℚ), (mi : ℚ), s⟩).time
        = 86400 * gregorianDays y m d + 3600 * h + 60 * mi + ⌊s⌋ ∧
      (gtime_epoch2time ⟨(y : ℚ), (m : ℚ), (d : ℚ), (h : ℚ), (mi : ℚ), s⟩).sec
        = s - ((⌊s⌋ : Int) : ℚ) := by
  have hml : gregorianMonthDays (gregorianIsLeap y) m ≤ 31 := by
    unfold gregorianMonthDays; split_ifs <;> omega
  rw [epoch2time_valid y m d h mi s hy.1 hy.2 hm.1 hm.2 hd.1 (by omega) hh.1 hh.2 hmi.1 hmi.2
    hs.1 hs.2]
  refine ⟨?_, rfl⟩
  show dayNumber y m d * 86400 + h * 3600 + mi * 60 + ⌊s⌋ = _
  rw [dayNumber_eq_gregorianDays y m d hy.1 hy.2 hm.1 hm.2]
  omega

theorem gregorianDays_gps : gregorianDays 1980 1 6 = 3657 := by decide

/-- The GPS epoch 1980-01-06 00:00:00, day 3657 of the Gregorian count, as an
instance of `epoch2time_gregorian`. -/
theorem epoch2time_gregorian_witness :
    ((1970 ≤ (1980 : Int) ∧ (1980 : Int) ≤ 2099) ∧ (1 ≤ (1 : Int) ∧ (1 : Int) ≤ 12) ∧
      (1 ≤ (6 : Int) ∧ (6 : Int) ≤ gregorianMonthDays (gregorianIsLeap 1980) 1) ∧
      (0 ≤ (0 : Int) ∧ (0 : Int) ≤ 23) ∧
      (0 ≤ (0 : Int) ∧ (0 : Int) ≤ 59) ∧ (0 ≤ (0 : ℚ) ∧ (0 : ℚ) < 60)) ∧
    ((gtime_epoch2time ⟨((1980 : Int) : ℚ), ((1 : Int) : ℚ), ((6 : Int) : ℚ),
        ((0 : Int) : ℚ), ((0 : Int) : ℚ), 0⟩).time
        = 86400 * gregorianDays 1980 1 6 + 3600 * 0 + 60 * 0 + ⌊(0 : ℚ)⌋ ∧
      (gtime_epoch2time ⟨((1980 : Int) : ℚ), ((1 : Int) : ℚ), ((6 : Int) : ℚ),
        ((0 : Int) : ℚ), ((0 : Int) : ℚ), 0⟩).sec = 0 - ((⌊(0 : ℚ)⌋ : Int) : ℚ)) :=
  ⟨⟨by decide, by decide, by decide, by decide, by decide, by norm_num⟩,
    epoch2time_gregorian 1980 1 6 0 0 0 (by decide) (by decide) (by decide) (by decide)
      (by decide) (by norm_num)⟩

theorem timeadd_int (t : gtime_t) (k : Int) (hs : 0 ≤ t.sec ∧ t.sec < 1)
    (hk : -2147483648 ≤ k ∧ k ≤ 2147483647) :
    gtime_timeadd t (k : ℚ) = ⟨t.time + k, t.sec⟩ := by
  have hfl : ⌊t.sec + (k : ℚ)⌋ = k := by
    rw [Int.floor_eq_iff]
    constructor <;> linarith [hs.1, hs.2]
  unfold gtime_timeadd
  simp only [hfl, toInt32_intCast k hk.1 hk.2]
  congr 1
  ring

theorem timediff_nonneg_iff (t : gtime_t) (L : Int) (hs : 0 ≤ t.sec ∧ t.sec < 1) :
    gtime_timediff t ⟨L, 0⟩ ≥ 0 ↔ L ≤ t.time := by
  unfold gtime_timediff
  simp only [sub_zero, ge_iff_le]
  constructor
  · intro h
    by_contra hcon
    have h1 : t.time - L ≤ -1 := by omega
    have h2 : ((t.time - L : Int) : ℚ) ≤ -1 := by exact_mod_cast h1
    linarith [hs.2]
  · intro h
    have h1 : 0 ≤ t.time - L := by omega
    have h2 : (0 : ℚ) ≤ ((t.time - L : Int) : ℚ) := by exact_mod_cast h1
    linarith [hs.1]

theorem gpst2utcScan_regular (t : gtime_t) (hs : 0 ≤ t.sec ∧ t.sec < 1)
    (rows : List leap_t) (tbl : List (Int × Int)) (tail : List leap_t)
    (hreg : List.Forall₂ RegularRow rows tbl)
    (htail : ∀ r ∈ tail.head?, ¬ r.ep.year > 0) :
    gpst2utcScan t (rows ++ tail) = ⟨t.time - gpsShift t.time tbl, t.sec⟩ := by
  induction hreg with
  | nil =>
    cases tail with
    | nil => simp [gpst2utcScan, gpsShift]
    | cons r rs =>
      have := htail r (by simp)
      simp [gpst2utcScan, gpsShift, this]
  | @cons r p rows tbl hr _ ih =>
    obtain ⟨hy, hep, hoff, hk1, hk2⟩ := hr
    have hadd : gtime_timeadd t r.off = ⟨t.time + -p.2, t.sec⟩ := by
      rw [hoff]
      have := timeadd_int t (-p.2) hs (by omega)
      simpa using this
    simp only [List.cons_append, gpst2utcScan, gpsShift, if_pos hy, hep, hadd]
    have hiff := timediff_nonneg_iff ⟨t.time + -p.2, t.sec⟩ p.1 hs
    simp only at hiff
    by_cases hle : p.1 ≤ t.time - p.2
    · rw [if_pos (hiff.mpr (by omega)), if_pos hle]
      congr 1
    · rw [if_neg (fun h => hle (by have := hiff.mp h; omega)), if_neg hle]
      exact ih

theorem leap_row_regular (y m k L : Int) (hy : 1970 ≤ y ∧ y ≤ 2099) (hm : 1 ≤ m ∧ m ≤ 12)
    (hL : dayNumber y m 1 * 86400 = L) (hk : 0 ≤ k ∧ k ≤ 1000) :
    RegularRow ⟨⟨(y : ℚ), (m : ℚ), 1, 0, 0, 0⟩, -(k : ℚ)⟩ (L, k) := by
  refine ⟨?_, ?_, rfl, hk.1, hk.2⟩
  · show (0 : ℚ) < (y : ℚ)
    exact_mod_cast (by omega : 0 < y)
  · have h := epoch2time_valid y m 1 0 0 0 hy.1 hy.2 hm.1 hm.2 (by decide) (by decide)
      (by decide) (by decide) (by decide) (by decide) (by norm_num) (by norm_num)
    simp only [Int.cast_one, Int.cast_zero, Int.floor_zero, sub_zero, zero_mul, add_zero,
      hL] at h
    exact h

theorem leapRows_regular : List.Forall₂ RegularRow leapRows leapTable := by
  have r0 : RegularRow ⟨⟨2017, 1, 1, 0, 0, 0⟩, -18⟩ (1483228800, 18) := by
    simpa using leap_row_regular 2017 1 18 1483228800 (by decide) (by decide) (by decide)
      (by decide)
  have r1 : RegularRow ⟨⟨2015, 7, 1, 0, 0, 0⟩, -17⟩ (1435708800, 17) := by
    simpa using leap_row_regular 2015 7 17 1435708800 (by decide) (by decide) (by decide)
      (by decide)
  have r2 : RegularRow ⟨⟨2012, 7, 1, 0, 0, 0⟩, -16⟩ (1341100800, 16) := by
    simpa using leap_row_regular 2012 7 16 1341100800 (by decide) (by decide) (by decide)
      (by decide)
  have r3 : RegularRow ⟨⟨2009, 1, 1, 0, 0, 0⟩, -15⟩ (1230768000, 15) := by
    simpa using leap_row_regular 2009 1 15 1230768000 (by decide) (by decide) (by decide)
      (by decide)
  have r4 : RegularRow ⟨⟨2006, 1, 1, 0, 0, 0⟩, -14⟩ (1136073600, 14) := by
    simpa using leap_row_regular 2006 1 14 1136073600 (by decide) (by decide) (by decide)
      (by decide)
  have r5 : RegularRow ⟨⟨1999, 1, 1, 0, 0, 0⟩, -13⟩ (915148800, 13) := by
    simpa using leap_row_regular 1999 1 13 915148800 (by decide) (by decide) (by decide)
      (by decide)
  have r6 : RegularRow ⟨⟨1997, 7, 1, 0, 0, 0⟩, -12⟩ (867715200, 12) := by
    simpa using leap_row_regular 1997 7 12 867715200 (by decide) (by decide) (by decide)
      (by decide)
  have r7 : RegularRow ⟨⟨1996, 1, 1, 0, 0, 0⟩, -11⟩ (820454400, 11) := by
    simpa using leap_row_regular 1996 1 11 820454400 (by decide) (by decide) (by decide)
      (by decide)
  have r8 : RegularRow ⟨⟨1994, 7, 1, 0, 0, 0⟩, -10⟩ (773020800, 10) := by
    simpa using leap_row_regular 1994 7 10 773020800 (by decide) (by decide) (by decide)
      (by decide)
  have r9 : RegularRow ⟨⟨1993, 7, 1, 0, 0, 0⟩, -9⟩ (741484800, 9) := by
    simpa using leap_row_regular 1993 7 9 741484800 (by decide) (by decide) (by decide)
      (by decide)
  have r10 : RegularRow ⟨⟨1992, 7, 1, 0, 0, 0⟩, -8⟩ (709948800, 8) := by
    simpa using leap_row_regular 1992 7 8 709948800 (by decide) (by decide) (by decide)
      (by decide)
  have r11 : RegularRow ⟨⟨1991, 1, 1, 0, 0, 0⟩, -7⟩ (662688000, 7) := by
    simpa using leap_row_regular 1991 1 7 662688000 (by decide) (by decide) (by decide)
      (by decide)
  have r12 : RegularRow ⟨⟨1990, 1, 1, 0, 0, 0⟩, -6⟩ (631152000, 6) := by
    simpa using leap_row_regular 1990 1 6 631152000 (by decide) (by decide) (by decide)
      (by decide)
  have r13 : RegularRow ⟨⟨1988, 1, 1, 0, 0, 0⟩, -5⟩ (567993600, 5) := by
    simpa using leap_row_regular 1988 1 5 567993600 (by decide) (by decide) (by decide)
      (by decide)
  have r14 : RegularRow ⟨⟨1985, 7, 1, 0, 0, 0⟩, -4⟩ (489024000, 4) := by
    simpa using leap_row_regular 1985 7 4 489024000 (by decide) (by decide) (by decide)
      (by decide)
  have r15 : RegularRow ⟨⟨1983, 7, 1, 0, 0, 0⟩, -3⟩ (425865600, 3) := by
    simpa using leap_row_regular 1983 7 3 425865600 (by decide) (by decide) (by decide)
      (by decide)
  have r16 : RegularRow ⟨⟨1982, 7, 1, 0, 0, 0⟩, -2⟩ (394329600, 2) := by
    simpa using leap_row_regular 1982 7 2 394329600 (by decide) (by decide) (by decide)
      (by decide)
  have r17 : RegularRow ⟨⟨1981, 7, 1, 0, 0, 0⟩, -1⟩ (362793600, 1) := by
    simpa using leap_row_regular 1981 7 1 362793600 (by decide) (by decide) (by decide)
      (by decide)
  exact .cons r0 (.cons r1 (.cons r2 (.cons r3 (.cons r4 (.cons r5 
    (.cons r6 (.cons r7 (.cons r8 (.cons r9 (.cons r10 (.cons r11 
    (.cons r12 (.cons r13 (.cons r14 (.cons r15 (.cons r16 (.cons r17 (.nil))))))))))))))))))

theorem leaps_tail_head :
    ∀ r ∈ (List.replicate (MAXLEAPS + 1 - leapRows.length) leapZero).head?, ¬ r.ep.year > 0 := by
  intro r hr
  have : r = leapZero := by
    have hlen : MAXLEAPS + 1 - leapRows.length = 46 + 1 := by decide
    rw [hlen, List.replicate_succ] at hr
    simpa using hr.symm
  subst this
  simp [leapZero]

theorem gpst2utc_eq (t : gtime_t) (hs : 0 ≤ t.sec ∧ t.sec < 1) :
    gtime_gpst2utc t = ⟨t.time - gpsShift t.time leapTable, t.sec⟩ :=
  gpst2utcScan_regular t hs leapRows leapTable _ leapRows_regular leaps_tail_head

theorem forall₂_getD {α β : Type} (R : α → β → Prop) (l1 : List α) (l2 : List β)
    (h : List.Forall₂ R l1 l2) (i : Nat) (hi : i < l1.length) (d1 : α) (d2 : β) :
    R (l1.getD i d1) (l2.getD i d2) := by
  induction h generalizing i with
  | nil => simp at hi
  | cons hr _ ih =>
    cases i with
    | zero => simpa using hr
    | succ i =>
      simp only [List.getD_cons_succ]
      exact ih i (by simpa using hi)

theorem leaps_getD (i : Nat) (hi : i < 18) :
    leaps.getD i leapZero = leapRows.getD i leapZero := by
  interval_cases i <;> rfl

theorem leap_row_at (i : Nat) (hi : i < 18) :
    RegularRow (leaps.getD i leapZero) (leapTable.getD i (0, 0)) := by
  rw [leaps_getD i hi]
  exact forall₂_getD RegularRow leapRows leapTable leapRows_regular i hi leapZero (0, 0)

set_option maxRecDepth 100000 in
theorem leapTable_offsets : ∀ i < 18, (leapTable.getD i (0, 0)).2 = 18 - (i : Int) := by
  decide

/-! ### Thresholds of the leap table -/

set_option maxRecDepth 100000 in
theorem leapTable_spacing :
    ∀ i < 18, ∀ j < i, (leapTable.getD i (0, 0)).1 + 100 < (leapTable.getD j (0, 0)).1 := by
  decide

theorem leapTable_offset_bounds (i : Nat) (hi : i < 18) :
    1 ≤ (leapTable.getD i (0, 0)).2 ∧ (leapTable.getD i (0, 0)).2 ≤ 18 := by
  have := leapTable_offsets i hi
  omega

theorem epoch2time_gpst0 : gtime_epoch2time gpst0 = ⟨315964800, 0⟩ := by
  have h := epoch2time_valid 1980 1 6 0 0 0 (by decide) (by decide) (by decide) (by decide)
    (by decide) (by decide) (by decide) (by decide) (by decide) (by decide) (by norm_num)
    (by norm_num)
  have hdn : dayNumber 1980 1 6 = 3657 := by decide
  rw [hdn] at h
  simp only [Int.cast_ofNat, Int.cast_zero, Int.cast_one, Int.floor_zero, sub_zero] at h
  exact h

theorem toInt32_of_bounds (x : ℚ) (h1 : -2147483648 ≤ x) (h2 : x ≤ 2147483647) :
    toInt32 x = trunc x := by
  have hz : -2147483648 ≤ trunc x ∧ trunc x ≤ 2147483647 := by
    unfold trunc
    split
    · constructor
      · have : (0 : Int) ≤ ⌊x⌋ := Int.floor_nonneg.mpr (by assumption)
        omega
      · have : ⌊x⌋ ≤ 2147483647 := by
          have h3 : ((⌊x⌋ : Int) : ℚ) ≤ x := Int.floor_le x
          have h4 : ((⌊x⌋ : Int) : ℚ) ≤ ((2147483647 : Int) : ℚ) := by
            push_cast; linarith
          exact_mod_cast h4
        exact this
    · constructor
      · have h3 : x ≤ ((⌈x⌉ : Int) : ℚ) := Int.le_ceil x
        have h4 : ((-2147483648 : Int) : ℚ) ≤ ((⌈x⌉ : Int) : ℚ) := by
          push_cast; linarith
        exact_mod_cast h4
      · have : ⌈x⌉ ≤ 0 := Int.ceil_le.mpr (by push_cast; linarith)
        omega
  unfold toInt32
  omega

theorem gpst2time_eq (week : Int) (tow : ℚ)
    (ht : -1000000000 ≤ tow ∧ tow ≤ 1000000000) :
    gtime_gpst2time week tow
      = ⟨315964800 + (86400 * 7 * week + trunc tow), tow - ((trunc tow : Int) : ℚ)⟩ := by
  unfold gtime_gpst2time
  rw [epoch2time_gpst0]
  have hclamp : ¬ (tow < -1000000000 ∨ 1000000000 < tow) := by
    intro h
    rcases h with h | h <;> linarith [ht.1, ht.2]
  simp only [if_neg hclamp]
  rw [toInt32_of_bounds tow (by linarith [ht.1]) (by linarith [ht.2])]

theorem time2gpst_eq (t : gtime_t) :
    gtime_time2gpst t
      = (((t.time - 315964800 : Int) : ℚ)
            - ((wrap32 ((t.time - 315964800).tdiv 604800) : Int) : ℚ) * 86400 * 7 + t.sec,
          wrap32 ((t.time - 315964800).tdiv 604800)) := by
  unfold gtime_time2gpst
  rw [epoch2time_gpst0]
  rfl

/-- Claim C8, amended (GPS week round trip). For every week number with
`0 ≤ week ≤ 2147483647` and every time of week with `0 ≤ tow < 604800`,
`gtime_time2gpst (gtime_gpst2time week tow)` returns the time of week `tow` and
writes the week number `week`. -/
theorem gpst_roundtrip (week : Int) (tow : ℚ) (hw : 0 ≤ week ∧ week ≤ 2147483647)
    (ht : 0 ≤ tow ∧ tow < 604800) :
    gtime_time2gpst (gtime_gpst2time week tow) = (tow, week) := by
  have hfl1 : 0 ≤ ⌊tow⌋ := Int.floor_nonneg.mpr ht.1
  have hfl2 : ⌊tow⌋ < 604800 := Int.floor_lt.mpr (by exact_mod_cast ht.2)
  rw [gpst2time_eq week tow ⟨by linarith [ht.1], by linarith [ht.2]⟩, trunc_of_nonneg tow ht.1,
    time2gpst_eq]
  have hdelta : 315964800 + (86400 * 7 * week + ⌊tow⌋) - 315964800 = 604800 * week + ⌊tow⌋ := by
    omega
  simp only [hdelta]
  have hdiv : (604800 * week + ⌊tow⌋).tdiv 604800 = week := by
    rw [tdiv_of_nonneg _ _ (by omega) (by omega)]; omega
  rw [hdiv, wrap32_eq week (by omega) hw.2]
  congr 1
  push_cast
  ring

/-- Week 2190, time of week 259218 s survives the round trip. -/
theorem gpst_roundtrip_witness :
    ((0 ≤ (2190 : Int) ∧ (2190 : Int) ≤ 2147483647) ∧ (0 ≤ (259218 : ℚ) ∧ (259218 : ℚ) < 604800)) ∧
    gtime_time2gpst (gtime_gpst2time 2190 259218) = (259218, 2190) :=
  ⟨⟨by decide, by norm_num⟩, gpst_roundtrip 2190 259218 (by decide) (by norm_num)⟩

theorem trunc_one : trunc 1 = 1 := by
  have := trunc_intCast 1
  simpa using this

/-- Claim C8 as stated fails for a negative week: from week -1 and time of week
1 s the round trip returns time of week -604799 s and week 0. -/
theorem gpst_roundtrip_negative_week :
    (0 ≤ (1 : ℚ) ∧ (1 : ℚ) < 604800) ∧
    gtime_time2gpst (gtime_gpst2time (-1) 1) = (-604799, 0) ∧
    gtime_time2gpst (gtime_gpst2time (-1) 1) ≠ (1, -1) := by
  have hval : gtime_time2gpst (gtime_gpst2time (-1) 1) = (-604799, 0) := by
    rw [gpst2time_eq (-1) 1 (by norm_num), trunc_one, time2gpst_eq]
    have h1 : ((315964800 : Int) + (86400 * 7 * -1 + 1) - 315964800).tdiv 604800 = 0 := by decide
    simp only [h1]
    have h2 : wrap32 0 = 0 := by decide
    rw [h2]
    norm_num
  refine ⟨by norm_num, hval, ?_⟩
  rw [hval]
  intro h
  have := congrArg Prod.snd h
  simp at this

/-- Claim C9, amended (`gtime_gpst2time` splits the time of week toward zero). For
every week and every time of week in [-1e9, 1e9]: when the time of week is not
negative the result has `time = 315964800 + 604800 * week + floor tow` and
`sec = tow - floor tow`, which lies in [0,1); when it is negative the result has
`time = 315964800 + 604800 * week + ceil tow` and `sec = tow - ceil tow`, which lies
in (-1,0]. -/
theorem gpst2time_split (week : Int) (tow : ℚ)
    (ht : -1000000000 ≤ tow ∧ tow ≤ 1000000000) :
    (0 ≤ tow →
      gtime_gpst2time week tow
          = ⟨315964800 + 604800 * week + ⌊tow⌋, tow - ((⌊tow⌋ : Int) : ℚ)⟩ ∧
        0 ≤ (gtime_gpst2time week tow).sec ∧ (gtime_gpst2time week tow).sec < 1) ∧
    (tow < 0 →
      gtime_gpst2time week tow
          = ⟨315964800 + 604800 * week + ⌈tow⌉, tow - ((⌈tow⌉ : Int) : ℚ)⟩ ∧
        -1 < (gtime_gpst2time week tow).sec ∧ (gtime_gpst2time week tow).sec ≤ 0) := by
  rw [gpst2time_eq week tow ht]
  constructor
  · intro h
    rw [trunc_of_nonneg tow h]
    refine ⟨?_, ?_, ?_⟩
    · congr 1; omega
    · show 0 ≤ tow - ((⌊tow⌋ : Int) : ℚ)
      linarith [Int.floor_le tow]
    · show tow - ((⌊tow⌋ : Int) : ℚ) < 1
      linarith [Int.lt_floor_add_one tow]
  · intro h
    have htr : trunc tow = ⌈tow⌉ := by
      unfold trunc
      rw [if_neg (not_le.mpr h)]
    rw [htr]
    refine ⟨?_, ?_, ?_⟩
    · congr 1; omega
    · show -1 < tow - ((⌈tow⌉ : Int) : ℚ)
      linarith [Int.ceil_lt_add_one tow]
    · show tow - ((⌈tow⌉ : Int) : ℚ) ≤ 0
      linarith [Int.le_ceil tow]

/-- Week 2190, time of week 259218 s: an instance of the floor-based split. -/
theorem gpst2time_split_witness :
    (-1000000000 ≤ (259218 : ℚ) ∧ (259218 : ℚ) ≤ 1000000000) ∧ (0 : ℚ) ≤ 259218 ∧
    gtime_gpst2time 2190 259218
      = ⟨315964800 + 604800 * 2190 + ⌊(259218 : ℚ)⌋, 259218 - ((⌊(259218 : ℚ)⌋ : Int) : ℚ)⟩ :=
  ⟨by norm_num, by norm_num,
    ((gpst2time_split 2190 259218 (by norm_num)).1 (by norm_num)).1⟩

theorem floor_neg_half : ⌊(-1 / 2 : ℚ)⌋ = -1 := by
  rw [Int.floor_eq_iff]; norm_num

theorem ceil_neg_half : ⌈(-1 / 2 : ℚ)⌉ = 0 := by
  rw [Int.ceil_eq_iff]; norm_num

/-- Claim C9 as stated fails for a negative time of week that is not whole: for
week 0 and time of week -1/2 the result is `{315964800, -1/2}`, not the floor-based
`{315964799, 1/2}`, and its `sec` is negative. -/
theorem gpst2time_negative_fraction :
    (-1000000000 ≤ (-1 / 2 : ℚ) ∧ (-1 / 2 : ℚ) ≤ 1000000000) ∧
    gtime_gpst2time 0 (-1 / 2) = ⟨315964800, -1 / 2⟩ ∧
    gtime_gpst2time 0 (-1 / 2)
      ≠ ⟨315964800 + 604800 * 0 + ⌊(-1 / 2 : ℚ)⌋, -1 / 2 - ((⌊(-1 / 2 : ℚ)⌋ : Int) : ℚ)⟩ ∧
    ¬ (0 ≤ (gtime_gpst2time 0 (-1 / 2)).sec) := by
  have htr : trunc (-1 / 2) = 0 := by
    unfold trunc
    rw [if_neg (by norm_num), ceil_neg_half]
  have hval : gtime_gpst2time 0 (-1 / 2) = ⟨315964800, -1 / 2⟩ := by
    rw [gpst2time_eq 0 (-1 / 2) (by norm_num), htr]
    norm_num
  refine ⟨by norm_num, hval, ?_, ?_⟩
  · rw [hval, floor_neg_half]
    intro h
    have := congrArg gtime_t.time h
    simp at this
  · rw [hval]
    norm_num

/-- At `2^31` weeks after the GPS epoch the week no longer fits `int32_t`: the value
written is the 32-bit reduction `-2147483648`. -/
theorem time2gpst_week_wraps :
    (gtime_time2gpst ⟨315964800 + 2147483648 * 604800, 0⟩).2 = -2147483648 := by
  rw [time2gpst_eq]
  decide

/-! ### `gtime_timeadd` and `gtime_timediff` -/

theorem toInt32_bounds (x : ℚ) : -2147483648 ≤ toInt32 x ∧ toInt32 x ≤ 2147483647 := by
  unfold toInt32
  omega

theorem timediff_timeadd (t : gtime_t) (s : ℚ) :
    gtime_timediff (gtime_timeadd t s) t
      = s + (((toInt32 ((⌊t.sec + s⌋ : Int) : ℚ) : Int) : ℚ) - ((⌊t.sec + s⌋ : Int) : ℚ)) := by
  unfold gtime_timediff gtime_timeadd
  simp only
  push_cast
  ring

/-- Additivity of `gtime_timeadd` whenever the whole part of `t.sec + s` fits
`int32_t`. -/
theorem timeadd_additive (t : gtime_t) (s : ℚ)
    (h : -2147483648 ≤ ⌊t.sec + s⌋ ∧ ⌊t.sec + s⌋ ≤ 2147483647) :
    gtime_timediff (gtime_timeadd t s) t = s := by
  rw [timediff_timeadd, toInt32_intCast _ h.1 h.2]
  ring

/-- The whole seconds of `gtime_timeadd t s` differ from those of `t` by a 32-bit
value, whatever `s` is. -/
theorem timeadd_carry_int32 (t : gtime_t) (s : ℚ) :
    -2147483648 ≤ (gtime_timeadd t s).time - t.time ∧
      (gtime_timeadd t s).time - t.time ≤ 2147483647 := by
  have h := toInt32_bounds ((⌊t.sec + s⌋ : Int) : ℚ)
  unfold gtime_timeadd
  simp only
  omega

theorem floor_three_billion : ⌊((0 : ℚ) + 3000000000)⌋ = 3000000000 := by
  rw [Int.floor_eq_iff]; norm_num

theorem toInt32_three_billion : toInt32 ((3000000000 : Int) : ℚ) = 2147483647 := by
  unfold toInt32
  rw [trunc_intCast]
  decide

/-- Claim C11 (additivity), evaluated where the code departs from it. The claim is
that `gtime_timediff (gtime_timeadd t s) t = s` for every `t` and every `s`. For
`t = {0, 0}` and `s = 3000000000` the whole part of the sum does not fit the
`int32_t` conversion of `gtime_timeadd`: the result is `{2147483647, 0}` and the
difference is 2147483647, not `s`. -/
theorem timeadd_large_delta :
    gtime_timeadd ⟨0, 0⟩ 3000000000 = ⟨2147483647, 0⟩ ∧
    gtime_timediff (gtime_timeadd ⟨0, 0⟩ 3000000000) ⟨0, 0⟩ = 2147483647 ∧
    gtime_timediff (gtime_timeadd ⟨0, 0⟩ 3000000000) ⟨0, 0⟩ ≠ 3000000000 := by
  have hval : gtime_timeadd ⟨0, 0⟩ 3000000000 = ⟨2147483647, 0⟩ := by
    unfold gtime_timeadd
    simp only [floor_three_billion, toInt32_three_billion]
    norm_num
  refine ⟨hval, ?_, ?_⟩
  · rw [hval]; unfold gtime_timediff; norm_num
  · rw [hval]; unfold gtime_timediff; norm_num

/-- The fraction returned by `gtime_timeadd` is `(t.sec + delta) - floor (t.sec + delta)`,
in [0,1), for every `delta`; the whole seconds are `t.time + floor (t.sec + delta)`
when that floor fits `int32_t`. -/
theorem timeadd_normalises (t : gtime_t) (delta : ℚ) :
    (gtime_timeadd t delta).sec = (t.sec + delta) - ((⌊t.sec + delta⌋ : Int) : ℚ) ∧
    0 ≤ (gtime_timeadd t delta).sec ∧ (gtime_timeadd t delta).sec < 1 ∧
    (-2147483648 ≤ ⌊t.sec + delta⌋ ∧ ⌊t.sec + delta⌋ ≤ 2147483647 →
      (gtime_timeadd t delta).time = t.time + ⌊t.sec + delta⌋) := by
  refine ⟨rfl, ?_, ?_, ?_⟩
  · show 0 ≤ (t.sec + delta) - ((⌊t.sec + delta⌋ : Int) : ℚ)
    linarith [Int.floor_le (t.sec + delta)]
  · show (t.sec + delta) - ((⌊t.sec + delta⌋ : Int) : ℚ) < 1
    linarith [Int.lt_floor_add_one (t.sec + delta)]
  · intro h
    show t.time + toInt32 ((⌊t.sec + delta⌋ : Int) : ℚ) = _
    rw [toInt32_intCast _ h.1 h.2]

/-- Adding -0.5 s to `{10, 0.25}` gives `{9, 0.75}`. -/
theorem timeadd_quarter_minus_half : gtime_timeadd ⟨10, 1 / 4⟩ (-1 / 2) = ⟨9, 3 / 4⟩ := by
  have hfl : ⌊((1 / 4 : ℚ) + -1 / 2)⌋ = -1 := by
    rw [Int.floor_eq_iff]; norm_num
  have hc : toInt32 (((-1 : Int)) : ℚ) = -1 := toInt32_intCast (-1) (by decide) (by decide)
  unfold gtime_timeadd
  simp only [hfl, hc]
  norm_num

/-- Claim C12 (floor-based carry of `gtime_timeadd`), evaluated where the code departs
from it. The claim is that for `0 ≤ t.sec < 1` and every `delta` the result has
`time = t.time + floor (t.sec + delta)`. For `t = {10, 1/4}` and `delta = 3000000000`
the floor is 3000000000, the fraction of the result is 1/4 as claimed, but its whole
seconds are 2147483657, not 3000000010. -/
theorem timeadd_carry_saturates :
    (0 ≤ (⟨10, 1 / 4⟩ : gtime_t).sec ∧ (⟨10, 1 / 4⟩ : gtime_t).sec < 1) ∧
    ⌊(1 / 4 : ℚ) + 3000000000⌋ = 3000000000 ∧
    gtime_timeadd ⟨10, 1 / 4⟩ 3000000000 = ⟨2147483657, 1 / 4⟩ ∧
    (gtime_timeadd ⟨10, 1 / 4⟩ 3000000000).time ≠ 10 + ⌊(1 / 4 : ℚ) + 3000000000⌋ := by
  have hfl : ⌊(1 / 4 : ℚ) + 3000000000⌋ = 3000000000 := by
    rw [Int.floor_eq_iff]; norm_num
  have hval : gtime_timeadd ⟨10, 1 / 4⟩ 3000000000 = ⟨2147483657, 1 / 4⟩ := by
    unfold gtime_timeadd
    simp only [hfl, toInt32_three_billion]
    norm_num
  refine ⟨by norm_num, hfl, hval, ?_⟩
  rw [hval, hfl]
  decide

theorem wrap64_eq (z : Int) (h1 : -9223372036854775808 ≤ z)
    (h2 : z ≤ 9223372036854775807) : wrap64 z = z := by
  unfold wrap64
  omega

theorem timediff_int64_eq (t1 t2 : gtime_t)
    (h : -9223372036854775808 ≤ t1.time - t2.time ∧ t1.time - t2.time ≤ 9223372036854775807) :
    gtime_timediff_int64 t1 t2 = gtime_timediff t1 t2 := by
  unfold gtime_timediff_int64 gtime_timediff
  rw [wrap64_eq _ h.1 h.2]

/-- Claim C13, amended (antisymmetry of the time difference). For every pair `t1`,
`t2` whose whole seconds differ by less than `2^63` in absolute value, so that both
`t1.time - t2.time` and `t2.time - t1.time` are representable in `int64_t`, the time
difference computed in 64 bits, `gtime_timediff_int64`, satisfies
`gtime_timediff_int64 t1 t2 = -gtime_timediff_int64 t2 t1` and
`gtime_timediff_int64 t1 t2 = (t1.time - t2.time) + t1.sec - t2.sec`; it is then the
exact difference `gtime_timediff t1 t2`. -/
theorem timediff_antisymm_int64 (t1 t2 : gtime_t)
    (h : -9223372036854775808 < t1.time - t2.time ∧
      t1.time - t2.time < 9223372036854775808) :
    gtime_timediff_int64 t1 t2 = -gtime_timediff_int64 t2 t1 ∧
    gtime_timediff_int64 t1 t2 = ((t1.time : ℚ) - (t2.time : ℚ)) + t1.sec - t2.sec ∧
    gtime_timediff_int64 t1 t2 = gtime_timediff t1 t2 := by
  have e1 := timediff_int64_eq t1 t2 ⟨by omega, by omega⟩
  have e2 := timediff_int64_eq t2 t1 ⟨by omega, by omega⟩
  rw [e1, e2]
  unfold gtime_timediff
  refine ⟨?_, ?_, rfl⟩
  · push_cast; ring
  · push_cast; ring

/-- The values 10.25 s and 3.5 s: an instance of `timediff_antisymm_int64`. -/
theorem timediff_antisymm_int64_witness :
    (-9223372036854775808 < (⟨10, 1 / 4⟩ : gtime_t).time - (⟨3, 1 / 2⟩ : gtime_t).time ∧
      (⟨10, 1 / 4⟩ : gtime_t).time - (⟨3, 1 / 2⟩ : gtime_t).time < 9223372036854775808) ∧
    gtime_timediff_int64 ⟨10, 1 / 4⟩ ⟨3, 1 / 2⟩ = -gtime_timediff_int64 ⟨3, 1 / 2⟩ ⟨10, 1 / 4⟩ :=
  ⟨by decide, (timediff_antisymm_int64 ⟨10, 1 / 4⟩ ⟨3, 1 / 2⟩ (by decide)).1⟩

/-- Claim C13 as stated fails for 64-bit times whose difference is not representable:
for `t1 = {-2^63, 0}` and `t2 = {0, 0}`, both 64-bit values, `t1.time - t2.time` is
`-2^63` and `t2.time - t1.time`, reduced to 64 bits, is `-2^63` as well, so the two
differences are equal instead of opposite. -/
theorem timediff_int64_not_antisymm :
    (-9223372036854775808 ≤ (⟨-9223372036854775808, 0⟩ : gtime_t).time ∧
      (⟨-9223372036854775808, 0⟩ : gtime_t).time ≤ 9223372036854775807) ∧
    gtime_timediff_int64 ⟨-9223372036854775808, 0⟩ ⟨0, 0⟩ = -9223372036854775808 ∧
    gtime_timediff_int64 ⟨0, 0⟩ ⟨-9223372036854775808, 0⟩ = -9223372036854775808 ∧
    gtime_timediff_int64 ⟨-9223372036854775808, 0⟩ ⟨0, 0⟩
      ≠ -gtime_timediff_int64 ⟨0, 0⟩ ⟨-9223372036854775808, 0⟩ := by
  have h1 : wrap64 ((-9223372036854775808 : Int) - 0) = -9223372036854775808 := by decide
  have h2 : wrap64 ((0 : Int) - -9223372036854775808) = -9223372036854775808 := by decide
  have v1 : gtime_timediff_int64 ⟨-9223372036854775808, 0⟩ ⟨0, 0⟩ = -9223372036854775808 := by
    unfold gtime_timediff_int64
    simp only [h1]
    norm_num
  have v2 : gtime_timediff_int64 ⟨0, 0⟩ ⟨-9223372036854775808, 0⟩ = -9223372036854775808 := by
    unfold gtime_timediff_int64
    simp only [h2]
    norm_num
  refine ⟨by decide, v1, v2, ?_⟩
  rw [v1, v2]
  norm_num

/-- Claim C14 (out-of-range time of week is taken as zero). For every week and every
time of week below -1e9 or above 1e9, `gtime_gpst2time week tow` equals
`gtime_gpst2time week 0`, that is `time = 315964800 + 604800 * week`, `sec = 0`. -/
theorem gpst2time_clamp (week : Int) (tow : ℚ)
    (h : tow < -1000000000 ∨ 1000000000 < tow) :
    gtime_gpst2time week tow = gtime_gpst2time week 0 ∧
    gtime_gpst2time week tow = ⟨315964800 + 604800 * week, 0⟩ := by
  have h0 : gtime_gpst2time week 0 = ⟨315964800 + 604800 * week, 0⟩ := by
    rw [gpst2time_eq week 0 (by norm_num)]
    have : trunc 0 = 0 := by simpa using trunc_intCast 0
    rw [this]
    congr 1
    · omega
    · norm_num
  have h1 : gtime_gpst2time week tow = gtime_gpst2time week 0 := by
    unfold gtime_gpst2time
    have hz : ¬ ((0 : ℚ) < -1000000000 ∨ (1000000000 : ℚ) < 0) := by norm_num
    simp only [if_pos h, if_neg hz]
  exact ⟨h1, by rw [h1, h0]⟩

/-- Week 2190 with time of week 2e9 s is taken as week 2190, time of week 0. -/
theorem gpst2time_clamp_witness :
    ((2000000000 : ℚ) < -1000000000 ∨ (1000000000 : ℚ) < 2000000000) ∧
    gtime_gpst2time 2190 2000000000 = gtime_gpst2time 2190 0 ∧
    gtime_gpst2time 2190 2000000000 = ⟨315964800 + 604800 * 2190, 0⟩ :=
  ⟨by norm_num, gpst2time_clamp 2190 2000000000 (by norm_num)⟩

/-! ### The zero sentinel -/

theorem epoch2time_unix_epoch :
    gtime_epoch2time ⟨((1970 : Int) : ℚ), ((1 : Int) : ℚ), ((1 : Int) : ℚ), ((0 : Int) : ℚ),
      ((0 : Int) : ℚ), 0⟩ = ⟨0, 0⟩ := by
  have h := epoch2time_valid 1970 1 1 0 0 0 (by decide) (by decide) (by decide) (by decide)
    (by decide) (by decide) (by decide) (by decide) (by decide) (by decide) (by norm_num)
    (by norm_num)
  have hdn : dayNumber 1970 1 1 = 0 := by decide
  rw [hdn] at h
  simp only [Int.floor_zero, Int.cast_zero, sub_zero] at h
  exact h

theorem dayNumber_nonneg (y m d : Int) (hy : 1970 ≤ y) (hy2 : y ≤ 2099)
    (hm : 1 ≤ m) (hm2 : m ≤ 12) (hd : 1 ≤ d) :
    0 ≤ dayNumber y m d ∧ (dayNumber y m d = 0 → y = 1970 ∧ m = 1 ∧ d = 1) := by
  have hdoy : 1 ≤ doy.getD (m - 1).toNat 0 ∧ (doy.getD (m - 1).toNat 0 = 1 → m = 1) := by
    interval_cases m <;> decide
  unfold dayNumber
  split <;> omega

/-- Claim C15, amended (meaning of an all-zero result). For a calendar input with
whole-number fields, day in 1..31, hour in 0..23, minute in 0..59 and second in
[0,60): if `gtime_epoch2time` returns `time = 0` and `sec = 0`, then the year is
outside [1970,2099] or the month outside [1,12], or the input is
1970-01-01 00:00:00 itself. -/
theorem epoch2time_zero_cases (y m d h mi : Int) (s : ℚ)
    (hd : 1 ≤ d ∧ d ≤ 31) (hh : 0 ≤ h ∧ h ≤ 23) (hmi : 0 ≤ mi ∧ mi ≤ 59)
    (hs : 0 ≤ s ∧ s < 60)
    (hz : gtime_epoch2time ⟨(y : ℚ), (m : ℚ), (d : ℚ), (h : ℚ), (mi : ℚ), s⟩ = ⟨0, 0⟩) :
    (y < 1970 ∨ 2099 < y ∨ m < 1 ∨ 12 < m) ∨
      (y = 1970 ∧ m = 1 ∧ d = 1 ∧ h = 0 ∧ mi = 0 ∧ s = 0) := by
  by_cases hbad : y < 1970 ∨ 2099 < y ∨ m < 1 ∨ 12 < m
  · exact Or.inl hbad
  · right
    have hy1 : 1970 ≤ y := by omega
    have hy2 : y ≤ 2099 := by omega
    have hm1 : 1 ≤ m := by omega
    have hm2 : m ≤ 12 := by omega
    rw [epoch2time_valid y m d h mi s hy1 hy2 hm1 hm2 hd.1 hd.2 hh.1 hh.2 hmi.1 hmi.2
      hs.1 hs.2] at hz
    have ht := congrArg gtime_t.time hz
    have hsec := congrArg gtime_t.sec hz
    simp only at ht hsec
    obtain ⟨hf1, hf2⟩ := floor_sec_bounds s hs.1 hs.2
    obtain ⟨hn1, hn2⟩ := dayNumber_nonneg y m d hy1 hy2 hm1 hm2 hd.1
    have hdn : dayNumber y m d = 0 := by omega
    obtain ⟨e1, e2, e3⟩ := hn2 hdn
    have hfl : ⌊s⌋ = 0 := by omega
    refine ⟨e1, e2, e3, by omega, by omega, ?_⟩
    rw [hfl] at hsec
    simpa using hsec

/-- The input 1970-01-01 00:00:00 returns the all-zero value and falls under the
second case of `epoch2time_zero_cases`. -/
theorem epoch2time_zero_cases_witness :
    ((1 ≤ (1 : Int) ∧ (1 : Int) ≤ 31) ∧ (0 ≤ (0 : Int) ∧ (0 : Int) ≤ 23) ∧
      (0 ≤ (0 : Int) ∧ (0 : Int) ≤ 59) ∧ (0 ≤ (0 : ℚ) ∧ (0 : ℚ) < 60) ∧
      gtime_epoch2time ⟨((1970 : Int) : ℚ), ((1 : Int) : ℚ), ((1 : Int) : ℚ),
        ((0 : Int) : ℚ), ((0 : Int) : ℚ), 0⟩ = ⟨0, 0⟩) ∧
    (((1970 : Int) < 1970 ∨ 2099 < (1970 : Int) ∨ (1 : Int) < 1 ∨ 12 < (1 : Int)) ∨
      ((1970 : Int) = 1970 ∧ (1 : Int) = 1 ∧ (1 : Int) = 1 ∧ (0 : Int) = 0 ∧ (0 : Int) = 0 ∧
        (0 : ℚ) = 0)) :=
  ⟨⟨by decide, by decide, by decide, by norm_num, epoch2time_unix_epoch⟩,
    epoch2time_zero_cases 1970 1 1 0 0 0 (by decide) (by decide) (by decide) (by norm_num)
      epoch2time_unix_epoch⟩

/-- Claim C15 as stated fails at 1970-01-01 00:00:00: the input is valid, year 1970
and month 1, and `gtime_epoch2time` returns `time = 0`, `sec = 0`. -/
theorem epoch2time_zero_instant :
    gtime_epoch2time ⟨((1970 : Int) : ℚ), ((1 : Int) : ℚ), ((1 : Int) : ℚ), ((0 : Int) : ℚ),
      ((0 : Int) : ℚ), 0⟩ = ⟨0, 0⟩ ∧
    ¬ ((1970 : Int) < 1970 ∨ 2099 < (1970 : Int) ∨ (1 : Int) < 1 ∨ 12 < (1 : Int)) :=
  ⟨epoch2time_unix_epoch, by decide⟩

/-- Outside the valid field ranges other inputs reach the all-zero value as well:
day 0 of January 1970 at 24:00:00. -/
theorem epoch2time_day_zero_hour_24 :
    gtime_epoch2time ⟨((1970 : Int) : ℚ), ((1 : Int) : ℚ), ((0 : Int) : ℚ), ((24 : Int) : ℚ),
      ((0 : Int) : ℚ), 0⟩ = ⟨0, 0⟩ := by
  unfold gtime_epoch2time
  simp only [toInt32_intCast 1970 (by decide) (by decide),
    toInt32_intCast 1 (by decide) (by decide), toInt32_intCast 0 (by decide) (by decide),
    toInt64_intCast 24 (by decide) (by decide), toInt64_intCast 0 (by decide) (by decide),
    Int.floor_zero]
  rw [if_neg (by decide)]
  congr 1
  norm_num

/-! ### Week 2190, time of week 259218 s -/

theorem trunc_259218 : trunc 259218 = 259218 := by
  simpa using trunc_intCast 259218

theorem gpst2time_2190 : gtime_gpst2time 2190 259218 = ⟨1640736018, 0⟩ := by
  rw [gpst2time_eq 2190 259218 (by norm_num), trunc_259218]
  norm_num

theorem time2epoch_1640736018 :
    gtime_time2epoch ⟨1640736018, 0⟩ = ⟨2021, 12, 29, 0, 0, 18⟩ := by
  have h := time2epoch_split 18990 18 0 (by decide) (by decide) (by decide) (by decide)
  have hw : mdayWalk mday (18990 % 1461) 0 = (28, 47) := by decide
  rw [hw] at h
  have e1 : (18990 : Int) / 1461 = 12 := by decide
  have e2 : (47 : Int).tdiv 12 = 3 := by decide
  have e3 : (47 : Int).tmod 12 = 11 := by decide
  have e4 : (18 : Int) / 3600 = 0 := by decide
  have e5 : (18 : Int) % 3600 / 60 = 0 := by decide
  have e6 : (18 : Int) % 60 = 18 := by decide
  simp only [e1, e2, e3, e4, e5, e6] at h
  norm_num at h
  exact h

theorem time2epoch_1640736000 :
    gtime_time2epoch ⟨1640736000, 0⟩ = ⟨2021, 12, 29, 0, 0, 0⟩ := by
  have h := time2epoch_split 18990 0 0 (by decide) (by decide) (by decide) (by decide)
  have hw : mdayWalk mday (18990 % 1461) 0 = (28, 47) := by decide
  rw [hw] at h
  have e1 : (18990 : Int) / 1461 = 12 := by decide
  have e2 : (47 : Int).tdiv 12 = 3 := by decide
  have e3 : (47 : Int).tmod 12 = 11 := by decide
  have e4 : (0 : Int) / 3600 = 0 := by decide
  have e5 : (0 : Int) % 3600 / 60 = 0 := by decide
  have e6 : (0 : Int) % 60 = 0 := by decide
  simp only [e1, e2, e3, e4, e5, e6] at h
  norm_num at h
  exact h

theorem gpst2utc_1640736018 : gtime_gpst2utc ⟨1640736018, 0⟩ = ⟨1640736000, 0⟩ := by
  rw [gpst2utc_eq _ (by norm_num)]
  have h : gpsShift 1640736018 leapTable = 18 := by decide
  simp only [h]
  norm_num

/-- Claim C16, amended (literal scenario). GPS week 2190 with time of week 259218 s,
converted with `gtime_gpst2time` and decoded with `gtime_time2epoch`, is
2021-12-29 00:00:18; decoded after `gtime_gpst2utc` it is 2021-12-29 00:00:00. -/
theorem week2190_decodes :
    gtime_time2epoch (gtime_gpst2time 2190 259218) = ⟨2021, 12, 29, 0, 0, 18⟩ ∧
    gtime_time2epoch (gtime_gpst2utc (gtime_gpst2time 2190 259218))
      = ⟨2021, 12, 29, 0, 0, 0⟩ := by
  rw [gpst2time_2190, gpst2utc_1640736018]
  exact ⟨time2epoch_1640736018, time2epoch_1640736000⟩

/-- Claim C16 as stated fails: neither decoding of week 2190, time of week 259218 s
has year 2022, month 1, day 1. -/
theorem week2190_not_new_year :
    ¬ ((gtime_time2epoch (gtime_gpst2time 2190 259218)).year = 2022 ∧
        (gtime_time2epoch (gtime_gpst2time 2190 259218)).mon = 1 ∧
        (gtime_time2epoch (gtime_gpst2time 2190 259218)).day = 1) ∧
    ¬ ((gtime_time2epoch (gtime_gpst2utc (gtime_gpst2time 2190 259218))).year = 2022 ∧
        (gtime_time2epoch (gtime_gpst2utc (gtime_gpst2time 2190 259218))).mon = 1 ∧
        (gtime_time2epoch (gtime_gpst2utc (gtime_gpst2time 2190 259218))).day = 1) := by
  rw [gpst2time_2190, gpst2utc_1640736018, time2epoch_1640736018, time2epoch_1640736000]
  constructor <;> norm_num

/-! ### Time of day in `gtime_time2epoch` -/

theorem floorDays_eq (t : gtime_t) : floorDays t = t.time / 86400 := by
  unfold floorDays
  have := Rat.floor_intCast_div_natCast t.time 86400
  simpa using this

theorem secOfDay_eq (t : gtime_t) : secOfDay t = t.time % 86400 := by
  unfold secOfDay
  rw [floorDays_eq]
  omega

theorem time2epoch_sec_of_day (a : Int) (h0 : 0 ≤ a) :
    wrap32 (a - wrap32 (a.tdiv 86400) * 86400) = a % 86400 := by
  rw [tdiv_of_nonneg a 86400 h0 (by omega)]
  unfold wrap32
  omega

/-- Claim C17, amended (time of day in `gtime_time2epoch`). For every `t` with
`0 ≤ t.time`, with `days = floor (t.time / 86400)` and
`secOfDay = t.time - days * 86400`, which lies in [0, 86400), the output has
`hour = secOfDay / 3600`, `minute = (secOfDay mod 3600) / 60` and
`second = secOfDay mod 60 + t.sec`. -/
theorem time2epoch_time_of_day (t : gtime_t) (h0 : 0 ≤ t.time) :
    (0 ≤ secOfDay t ∧ secOfDay t < 86400) ∧
    (gtime_time2epoch t).hour = ((secOfDay t / 3600 : Int) : ℚ) ∧
    (gtime_time2epoch t).minute = ((secOfDay t % 3600 / 60 : Int) : ℚ) ∧
    (gtime_time2epoch t).sec = ((secOfDay t % 60 : Int) : ℚ) + t.sec := by
  rw [secOfDay_eq]
  have hsec := time2epoch_sec_of_day t.time h0
  have hr1 : 0 ≤ t.time % 86400 := by omega
  have hr2 : t.time % 86400 < 86400 := by omega
  unfold gtime_time2epoch
  simp only [hsec]
  rw [tdiv_of_nonneg _ 3600 hr1 (by omega), tmod_of_nonneg _ 3600 hr1 (by omega),
    tmod_of_nonneg _ 60 hr1 (by omega),
    tdiv_of_nonneg (t.time % 86400 % 3600) 60 (by omega) (by omega)]
  exact ⟨⟨hr1, hr2⟩, rfl, rfl, rfl⟩

/-- The instant 1640736018 s: an instance of `time2epoch_time_of_day`. -/
theorem time2epoch_time_of_day_witness :
    0 ≤ (⟨1640736018, 0⟩ : gtime_t).time ∧
    (gtime_time2epoch ⟨1640736018, 0⟩).hour
      = ((secOfDay ⟨1640736018, 0⟩ / 3600 : Int) : ℚ) :=
  ⟨by decide, (time2epoch_time_of_day ⟨1640736018, 0⟩ (by decide)).2.1⟩

/-- Claim C17 as stated fails for a negative time: for `t = {-1, 0}` the floor split
gives second of day 86399, i.e. 23:59:59, but the output has hour 0 and second -1. -/
theorem time2epoch_negative_time :
    secOfDay ⟨-1, 0⟩ = 86399 ∧
    (gtime_time2epoch ⟨-1, 0⟩).hour = 0 ∧
    (gtime_time2epoch ⟨-1, 0⟩).sec = -1 ∧
    (gtime_time2epoch ⟨-1, 0⟩).hour ≠ ((secOfDay ⟨-1, 0⟩ / 3600 : Int) : ℚ) ∧
    (gtime_time2epoch ⟨-1, 0⟩).sec ≠ ((secOfDay ⟨-1, 0⟩ % 60 : Int) : ℚ) + 0 := by
  have hsod : secOfDay ⟨-1, 0⟩ = 86399 := by
    rw [secOfDay_eq]; decide
  have hsec : wrap32 ((-1 : Int) - wrap32 ((-1 : Int).tdiv 86400) * 86400) = -1 := by decide
  have hh : (gtime_time2epoch ⟨-1, 0⟩).hour = 0 := by
    show ((Int.tdiv (wrap32 ((-1 : Int) - wrap32 ((-1 : Int).tdiv 86400) * 86400)) 3600 : Int) : ℚ)
      = 0
    rw [hsec]
    have : (-1 : Int).tdiv 3600 = 0 := by decide
    rw [this]; norm_num
  have hs : (gtime_time2epoch ⟨-1, 0⟩).sec = -1 := by
    show ((Int.tmod (wrap32 ((-1 : Int) - wrap32 ((-1 : Int).tdiv 86400) * 86400)) 60 : Int) : ℚ)
      + 0 = -1
    rw [hsec]
    have : (-1 : Int).tmod 60 = -1 := by decide
    rw [this]; norm_num
  refine ⟨hsod, hh, hs, ?_, ?_⟩
  · rw [hh, hsod]; norm_num
  · rw [hs, hsod]; norm_num

/-! ### The table `leaps` -/

theorem leapRows_dates : List.Forall₂ FirstOfMonth leapRows leapDates := by
  unfold leapRows leapDates
  repeat (first
    | exact List.Forall₂.nil
    | refine List.Forall₂.cons (by unfold FirstOfMonth; norm_num) ?_)

theorem leap_date_at (i : Nat) (hi : i < 18) :
    FirstOfMonth (leaps.getD i leapZero) (leapDates.getD i (0, 0)) := by
  rw [leaps_getD i hi]
  exact forall₂_getD FirstOfMonth leapRows leapDates leapRows_dates i hi leapZero (0, 0)

set_option maxRecDepth 100000 in
theorem leapDates_bounds :
    ∀ i < 18, 1981 ≤ (leapDates.getD i (0, 0)).1 ∧ (leapDates.getD i (0, 0)).1 ≤ 2017 ∧
      1 ≤ (leapDates.getD i (0, 0)).2 ∧ (leapDates.getD i (0, 0)).2 ≤ 12 := by
  decide

theorem gpst2utcScan_sentinel (t : gtime_t) (rows tail : List leap_t)
    (htail : ∀ r ∈ tail.head?, ¬ r.ep.year > 0) :
    gpst2utcScan t (rows ++ tail) = gpst2utcScan t rows := by
  induction rows with
  | nil =>
    cases tail with
    | nil => rfl
    | cons r rs =>
      have := htail r (by simp)
      simp [gpst2utcScan, this]
  | cons r rows ih =>
    have ih2 : gpst2utcScan t (rows.append tail) = gpst2utcScan t rows := ih
    simp only [List.cons_append, gpst2utcScan, ih2]

theorem utc2gpstScan_sentinel (t : gtime_t) (rows tail : List leap_t)
    (htail : ∀ r ∈ tail.head?, ¬ r.ep.year > 0) :
    utc2gpstScan t (rows ++ tail) = utc2gpstScan t rows := by
  induction rows with
  | nil =>
    cases tail with
    | nil => rfl
    | cons r rs =>
      have := htail r (by simp)
      simp [utc2gpstScan, this]
  | cons r rows ih =>
    have ih2 : utc2gpstScan t (rows.append tail) = utc2gpstScan t rows := ih
    simp only [List.cons_append, utc2gpstScan, ih2]

theorem leaps_take : leaps.take 18 = leapRows := rfl

/-- Claim C18 (the table `leaps` is well formed). Rows 0..17 have a positive year and
row 18 has year 0, so both scans read the first 18 rows only; each of the 18 rows is
the calendar input `{y, m, 1, 0, 0, 0}` with `1981 ≤ y ≤ 2017` and `1 ≤ m ≤ 12`; the
rows are strictly descending in time under `gtime_epoch2time`; the offset of row `i`
is `-(18 - i)`, one second more negative than that of the next older row. -/
theorem leaps_well_formed :
    (∀ i : Nat, i < 18 → (leaps.getD i leapZero).ep.year > 0) ∧
    (leaps.getD 18 leapZero).ep.year = 0 ∧
    (∀ t : gtime_t, gtime_gpst2utc t = gpst2utcScan t (leaps.take 18) ∧
      gtime_utc2gpst t = utc2gpstScan t (leaps.take 18)) ∧
    (∀ i : Nat, i < 18 → ∃ y m : Int,
      (leaps.getD i leapZero).ep = ⟨(y : ℚ), (m : ℚ), 1, 0, 0, 0⟩ ∧
      1981 ≤ y ∧ y ≤ 2017 ∧ 1 ≤ m ∧ m ≤ 12) ∧
    (∀ i j : Nat, i < j → j < 18 →
      instant (gtime_epoch2time (leaps.getD j leapZero).ep)
        < instant (gtime_epoch2time (leaps.getD i leapZero).ep)) ∧
    (∀ i : Nat, i < 18 → (leaps.getD i leapZero).off = -((18 - (i : Int) : Int) : ℚ)) ∧
    (∀ i : Nat, i < 17 →
      (leaps.getD i leapZero).off = (leaps.getD (i + 1) leapZero).off - 1) := by
  have hoff : ∀ i : Nat, i < 18 →
      (leaps.getD i leapZero).off = -((18 - (i : Int) : Int) : ℚ) := by
    intro i hi
    obtain ⟨_, _, hoff, _, _⟩ := leap_row_at i hi
    rw [leapTable_offsets i hi] at hoff
    exact hoff
  refine ⟨?_, rfl, ?_, ?_, ?_, hoff, ?_⟩
  · intro i hi
    exact (leap_row_at i hi).1
  · intro t
    rw [leaps_take]
    exact ⟨gpst2utcScan_sentinel t leapRows _ leaps_tail_head,
      utc2gpstScan_sentinel t leapRows _ leaps_tail_head⟩
  · intro i hi
    obtain ⟨h1, h2, h3, h4⟩ := leapDates_bounds i hi
    exact ⟨_, _, leap_date_at i hi, h1, h2, h3, h4⟩
  · intro i j hij hj
    obtain ⟨_, hepi, _, _, _⟩ := leap_row_at i (by omega)
    obtain ⟨_, hepj, _, _, _⟩ := leap_row_at j hj
    rw [hepi, hepj]
    have hsp := leapTable_spacing j hj i hij
    unfold instant
    simp only [add_zero]
    exact_mod_cast (by omega : (leapTable.getD j (0, 0)).1 < (leapTable.getD i (0, 0)).1)
  · intro i hi
    rw [hoff i (by omega), hoff (i + 1) (by omega)]
    push_cast
    ring

/-! ### UTC to GPS and back -/

end GTime
